import Mathlib

/-!
Shallow embedding of the trend-derivation and scoring engine of the
`demand_analy` repository (src/analysis.py, src/collect_stockdemand.py,
src/data_collector.py, src/backup/demand_analysis.py), together with
theorems settling the specification claims about it.

All Python float arithmetic that the claims touch is exact in binary
floating point (weights 0.4/0.2 applied to multiples of 25, the literal
threshold comparisons), so it is modelled by exact rationals `ℚ`; where
this needs an argument it is given at the definition.
-/

namespace DemandAnaly

/-- The five trend labels produced by `assess_trend`. -/
inductive Trend where
  | strong_buy
  | buy
  | neutral
  | sell
  | strong_sell
  deriving DecidableEq, Repr, Fintype

/-- The five recommendation labels produced by `get_recommendation`
(`hold` in place of `neutral`). -/
inductive Rec where
  | strong_buy
  | buy
  | hold
  | sell
  | strong_sell
  deriving DecidableEq, Repr, Fintype

/-- `foreigner_map` of `calculate_supply_score`
(src/analysis.py:100, src/collect_stockdemand.py:324). -/
def foreigner_map : Trend → ℚ
  | .strong_buy => 100
  | .buy => 75
  | .neutral => 50
  | .sell => 25
  | .strong_sell => 0

/-- `organ_map` of `calculate_supply_score` — the source declares its own
dict with the same entries (src/analysis.py:104, src/collect_stockdemand.py:329). -/
def organ_map : Trend → ℚ
  | .strong_buy => 100
  | .buy => 75
  | .neutral => 50
  | .sell => 25
  | .strong_sell => 0

/-- `individual_map` of `calculate_supply_score`: the inverted table for the
contrarian retail leg (src/analysis.py:108, src/collect_stockdemand.py:334). -/
def individual_map : Trend → ℚ
  | .strong_buy => 0
  | .buy => 25
  | .neutral => 50
  | .sell => 75
  | .strong_sell => 100

/-- Python `int()` applied to a real value: truncation toward zero
(numerator T-divided by the positive denominator). -/
def intTrunc (q : ℚ) : ℤ := q.num.tdiv (q.den : ℤ)

/-- `calculate_supply_score` (src/analysis.py:95-111). The variant in
src/collect_stockdemand.py:318-337 writes each weight as `* 40 / 100`
(resp. `* 20 / 100`) instead of `* 0.4` (`* 0.2`); both float computations
are exact (every intermediate is a multiple of 5, exactly representable),
so one rational definition models both. -/
def calculate_supply_score (f o i : Trend) : ℤ :=
  let score : ℚ := 50 + (foreigner_map f - 50) * (40 / 100)
      + (organ_map o - 50) * (40 / 100)
      + (individual_map i - 50) * (20 / 100)
  max 0 (min 100 (intTrunc score))

/-- The composite score exactly as claim C1 words it: map the labels through
the stated tables, add the weighted deviations from 50, truncate to an
integer and clamp into [0,100]. -/
def spec_composite_score (f o i : Trend) : ℤ :=
  let fv : ℚ := foreigner_map f
  let ov : ℚ := organ_map o
  let iv : ℚ := individual_map i
  min 100 (max 0 (intTrunc (50 + (fv - 50) * (4 / 10) + (ov - 50) * (4 / 10) + (iv - 50) * (2 / 10))))

/-- `get_recommendation` (src/analysis.py:113-124, src/collect_stockdemand.py:339-350):
score thresholds evaluated high-to-low. -/
def get_recommendation (score : ℤ) : Rec :=
  if score ≥ 80 then .strong_buy
  else if score ≥ 60 then .buy
  else if score ≥ 40 then .hold
  else if score ≥ 20 then .sell
  else .strong_sell

/-- The sign computation of `calculate_continuous_days`:
`1 if x > 0 else -1 if x < 0 else 0`. -/
def pySign (x : ℤ) : ℤ := if x > 0 then 1 else if x < 0 then -1 else 0

/-- The loop of `calculate_continuous_days`: number of leading elements whose
sign equals `s` (the loop breaks at the first mismatch). -/
def matchingRun (s : ℤ) : List ℤ → ℤ
  | [] => 0
  | x :: xs => if pySign x = s then 1 + matchingRun s xs else 0

/-- `calculate_continuous_days` (src/collect_stockdemand.py:277-295, identical in
src/backup/demand_analysis.py:295-313): signed length of the leading
same-sign run, `0` for an empty series or a zero-valued first entry. -/
def calculate_continuous_days : List ℤ → ℤ
  | [] => 0
  | x :: xs =>
    let current_sign := pySign x
    if current_sign = 0 then 0
    else (1 + matchingRun current_sign xs) * current_sign

/-- The streak as the spec describes it: the count of the leading run of
entries whose sign matches the first entry's sign, multiplied by that sign. -/
def streakSpec : List ℤ → ℤ
  | [] => 0
  | x :: xs =>
    if pySign x = 0 then 0
    else (((x :: xs).takeWhile (fun y => pySign y = pySign x)).length : ℤ) * pySign x

/-- `assess_trend` (src/collect_stockdemand.py:297-316, identical in
src/backup/demand_analysis.py:315-334): only the first 5 values are
inspected, fewer than 3 values is neutral. The float threshold
`total_count * 0.7` is modelled by the exact rational `total * (7/10)`;
for every reachable total (3, 4, 5) the Python float product lies strictly
between the same neighbouring integers as the rational, so every integer
count compares identically against either. -/
def assess_trend (data : List ℤ) : Trend :=
  if data.length < 3 then .neutral
  else
    let recent := data.take 5
    let positive_count := recent.countP (fun x => decide (0 < x))
    let negative_count := recent.countP (fun x => decide (x < 0))
    let total_count := recent.length
    if positive_count = total_count then .strong_buy
    else if (total_count : ℚ) * (7 / 10) ≤ (positive_count : ℚ) then .buy
    else if negative_count = total_count then .strong_sell
    else if (total_count : ℚ) * (7 / 10) ≤ (negative_count : ℚ) then .sell
    else .neutral

/-- `assess_trend` as written in src/analysis.py:75-93: it does NOT cut the
window to 5 values, and its insufficient-data cutoff is `len(data) < 2`,
not `< 3`. -/
def assess_trend_a (data : List ℤ) : Trend :=
  if data.length < 2 then .neutral
  else
    let positive_count := data.countP (fun x => decide (0 < x))
    let negative_count := data.countP (fun x => decide (x < 0))
    let total_count := data.length
    if positive_count = total_count then .strong_buy
    else if (total_count : ℚ) * (7 / 10) ≤ (positive_count : ℚ) then .buy
    else if negative_count = total_count then .strong_sell
    else if (total_count : ℚ) * (7 / 10) ≤ (negative_count : ℚ) then .sell
    else .neutral

/-- Integer weighted contribution of a foreigner/organ leg:
`(map value − 50) × 0.4` is always one of −20, −10, 0, 10, 20. -/
def wFO : Trend → ℤ
  | .strong_buy => 20
  | .buy => 10
  | .neutral => 0
  | .sell => -10
  | .strong_sell => -20

/-- Integer weighted contribution of the individual leg:
`(inverted map value − 50) × 0.2` is always one of −10, −5, 0, 5, 10. -/
def wI : Trend → ℤ
  | .strong_buy => -10
  | .buy => -5
  | .neutral => 0
  | .sell => 5
  | .strong_sell => 10

theorem intTrunc_intCast (n : ℤ) : intTrunc ((n : ℤ) : ℚ) = n := by
  simp [intTrunc]

theorem foreigner_leg_eq (f : Trend) :
    (foreigner_map f - 50) * (40 / 100) = ((wFO f : ℤ) : ℚ) := by
  cases f <;> norm_num [foreigner_map, wFO]

theorem organ_leg_eq (o : Trend) :
    (organ_map o - 50) * (40 / 100) = ((wFO o : ℤ) : ℚ) := by
  cases o <;> norm_num [organ_map, wFO]

theorem individual_leg_eq (i : Trend) :
    (individual_map i - 50) * (20 / 100) = ((wI i : ℤ) : ℚ) := by
  cases i <;> norm_num [individual_map, wI]

theorem calculate_supply_score_eq (f o i : Trend) :
    calculate_supply_score f o i = max 0 (min 100 (50 + wFO f + wFO o + wI i)) := by
  dsimp only [calculate_supply_score]
  rw [foreigner_leg_eq, organ_leg_eq, individual_leg_eq]
  rw [show (50 : ℚ) + ((wFO f : ℤ) : ℚ) + ((wFO o : ℤ) : ℚ) + ((wI i : ℤ) : ℚ)
      = ((50 + wFO f + wFO o + wI i : ℤ) : ℚ) by push_cast; ring]
  rw [intTrunc_intCast]

theorem foreigner_leg_eq' (f : Trend) :
    (foreigner_map f - 50) * (4 / 10) = ((wFO f : ℤ) : ℚ) := by
  cases f <;> norm_num [foreigner_map, wFO]

theorem organ_leg_eq' (o : Trend) :
    (organ_map o - 50) * (4 / 10) = ((wFO o : ℤ) : ℚ) := by
  cases o <;> norm_num [organ_map, wFO]

theorem individual_leg_eq' (i : Trend) :
    (individual_map i - 50) * (2 / 10) = ((wI i : ℤ) : ℚ) := by
  cases i <;> norm_num [individual_map, wI]

theorem spec_composite_score_eq (f o i : Trend) :
    spec_composite_score f o i = min 100 (max 0 (50 + wFO f + wFO o + wI i)) := by
  dsimp only [spec_composite_score]
  rw [foreigner_leg_eq', organ_leg_eq', individual_leg_eq']
  rw [show (50 : ℚ) + ((wFO f : ℤ) : ℚ) + ((wFO o : ℤ) : ℚ) + ((wI i : ℤ) : ℚ)
      = ((50 + wFO f + wFO o + wI i : ℤ) : ℚ) by push_cast; ring]
  rw [intTrunc_intCast]

/-- C1: for every triple of trend labels (foreign, institutional, individual) the
composite score equals the spec formula — map the labels through the stated (resp.
inverted) tables, add the weighted deviations from 50 to the base 50, truncate toward
zero and clamp into [0,100]; in particular (strong_buy, strong_buy, strong_sell) yields
100, (neutral, neutral, neutral) yields 50, and the score always lies in [0,100]. -/
theorem c1_composite_score :
    (∀ f o i : Trend, calculate_supply_score f o i = spec_composite_score f o i) ∧
    calculate_supply_score .strong_buy .strong_buy .strong_sell = 100 ∧
    calculate_supply_score .neutral .neutral .neutral = 50 ∧
    (∀ f o i : Trend, 0 ≤ calculate_supply_score f o i ∧ calculate_supply_score f o i ≤ 100) := by
  refine ⟨fun f o i => ?_, ?_, ?_, fun f o i => ?_⟩
  · rw [calculate_supply_score_eq, spec_composite_score_eq]
    omega
  · rw [calculate_supply_score_eq]
    decide
  · rw [calculate_supply_score_eq]
    decide
  · rw [calculate_supply_score_eq]
    omega

theorem matchingRun_eq_takeWhile (s : ℤ) (l : List ℤ) :
    matchingRun s l = ((l.takeWhile (fun y => pySign y = s)).length : ℤ) := by
  induction l with
  | nil => simp [matchingRun]
  | cons x xs ih =>
    by_cases h : pySign x = s
    · simp only [matchingRun, h, if_pos, List.takeWhile_cons, decide_true_eq_true,
        decide_eq_true_eq, List.length_cons, ih]
      push_cast
      ring
    · simp [matchingRun, h, List.takeWhile_cons]

/-- C2: the streak detector returns 0 on the empty sequence and on a zero-valued first
entry, and otherwise the signed length of the leading run of entries whose sign matches
the first entry's sign; streak([]) = 0, streak([0,5,5]) = 0, streak([3,2,1,-1]) = 3,
streak([-1,-2,3]) = -2. -/
theorem c2_streak_detector :
    (∀ l : List ℤ, calculate_continuous_days l = streakSpec l) ∧
    calculate_continuous_days ([] : List ℤ) = 0 ∧
    calculate_continuous_days [0, 5, 5] = 0 ∧
    calculate_continuous_days [3, 2, 1, -1] = 3 ∧
    calculate_continuous_days [-1, -2, 3] = -2 := by
  refine ⟨fun l => ?_, by decide, by decide, by decide, by decide⟩
  cases l with
  | nil => rfl
  | cons x xs =>
    dsimp only [calculate_continuous_days, streakSpec]
    by_cases h : pySign x = 0
    · simp [h]
    · simp only [h, if_neg, List.takeWhile_cons, not_false_iff]
      simp [matchingRun_eq_takeWhile, h]
      ring

/-- C5: the recommendation label is a function of the integer score alone, with the
high-to-low thresholds 80 / 60 / 40 / 20. -/
theorem c5_recommendation_thresholds (score : ℤ) :
    (get_recommendation score = .strong_buy ↔ 80 ≤ score) ∧
    (get_recommendation score = .buy ↔ 60 ≤ score ∧ score < 80) ∧
    (get_recommendation score = .hold ↔ 40 ≤ score ∧ score < 60) ∧
    (get_recommendation score = .sell ↔ 20 ≤ score ∧ score < 40) ∧
    (get_recommendation score = .strong_sell ↔ score < 20) := by
  unfold get_recommendation
  split_ifs <;> refine ⟨?_, ?_, ?_, ?_, ?_⟩ <;> simp_all <;> omega

theorem threshold_iff (t pc : ℕ) :
    ((t : ℚ) * (7 / 10) ≤ (pc : ℚ)) ↔ 7 * t ≤ 10 * pc := by
  rw [show ((t : ℚ) * (7 / 10)) = ((7 * t : ℕ) : ℚ) / 10 by push_cast; ring,
    div_le_iff₀ (by norm_num : (0 : ℚ) < 10),
    show ((pc : ℚ) * 10) = ((10 * pc : ℕ) : ℚ) by push_cast; ring]
  exact Nat.cast_le

theorem countP_pos_add_countP_neg_le (w : List ℤ) :
    w.countP (fun x => decide (0 < x)) + w.countP (fun x => decide (x < 0)) ≤ w.length := by
  have h1 := List.length_eq_countP_add_countP (p := fun x : ℤ => decide (0 < x)) w
  have h2 : w.countP (fun x => decide (x < 0))
      ≤ w.countP (fun x => ¬(decide (0 < x) : Bool)) := by
    refine List.countP_mono_left fun x _ hx => ?_
    simp only [decide_eq_true_eq] at hx ⊢
    omega
  omega

/-- Characterization of both `assess_trend` variants on a 5-value window, in terms of
the strict positive/negative counts. Both variants agree there. -/
theorem assess_trend_len5 (w : List ℤ) (hw : w.length = 5) :
    (assess_trend w = assess_trend_a w) ∧
    (assess_trend w = .strong_buy ↔ w.countP (fun x => decide (0 < x)) = 5) ∧
    (assess_trend w = .buy ↔
      4 ≤ w.countP (fun x => decide (0 < x)) ∧ w.countP (fun x => decide (0 < x)) ≠ 5) ∧
    (assess_trend w = .strong_sell ↔ w.countP (fun x => decide (x < 0)) = 5) ∧
    (assess_trend w = .sell ↔
      4 ≤ w.countP (fun x => decide (x < 0)) ∧ w.countP (fun x => decide (x < 0)) ≠ 5) ∧
    (assess_trend w = .neutral ↔
      w.countP (fun x => decide (0 < x)) ≤ 3 ∧ w.countP (fun x => decide (x < 0)) ≤ 3) := by
  have htake : w.take 5 = w := List.take_of_length_le (by omega)
  have hpc : w.countP (fun x => decide (0 < x)) ≤ 5 := hw ▸ List.countP_le_length _
  have hnc : w.countP (fun x => decide (x < 0)) ≤ 5 := hw ▸ List.countP_le_length _
  have hsum := countP_pos_add_countP_neg_le w
  rw [hw] at hsum
  have hagree : assess_trend w = assess_trend_a w := by
    dsimp only [assess_trend, assess_trend_a]
    rw [htake, hw]
    norm_num
  refine ⟨hagree, ?_⟩
  dsimp only [assess_trend]
  rw [htake, hw, if_neg (by norm_num : ¬(5 < 3))]
  split_ifs with h1 h2 h3 h4
  · refine ⟨?_, ?_, ?_, ?_, ?_⟩ <;> simp <;> omega
  · rw [threshold_iff] at h2
    refine ⟨?_, ?_, ?_, ?_, ?_⟩ <;> simp <;> omega
  · rw [threshold_iff, not_le] at h2
    refine ⟨?_, ?_, ?_, ?_, ?_⟩ <;> simp <;> omega
  · rw [threshold_iff, not_le] at h2
    rw [threshold_iff] at h4
    refine ⟨?_, ?_, ?_, ?_, ?_⟩ <;> simp <;> omega
  · rw [threshold_iff, not_le] at h2
    rw [threshold_iff, not_le] at h4
    refine ⟨?_, ?_, ?_, ?_, ?_⟩ <;> simp <;> omega

/-- C3: on every 5-value window both classifier variants agree on the label, and the
label is strong_buy iff all 5 values are strictly positive, buy iff at least 4 of 5
(the ≥70% threshold 3.5) but not all are positive, strong_sell iff all 5 are strictly
negative, sell iff at least 4 of 5 but not all are negative, and neutral otherwise;
classify([1,1,1,1,-1]) = buy and classify([1,1,1,-1,-1]) = neutral. -/
theorem c3_trend_classifier_window5 :
    (∀ w : List ℤ, w.length = 5 →
      (assess_trend w = assess_trend_a w) ∧
      (assess_trend w = .strong_buy ↔ w.countP (fun x => decide (0 < x)) = 5) ∧
      (assess_trend w = .buy ↔
        4 ≤ w.countP (fun x => decide (0 < x)) ∧ w.countP (fun x => decide (0 < x)) ≠ 5) ∧
      (assess_trend w = .strong_sell ↔ w.countP (fun x => decide (x < 0)) = 5) ∧
      (assess_trend w = .sell ↔
        4 ≤ w.countP (fun x => decide (x < 0)) ∧ w.countP (fun x => decide (x < 0)) ≠ 5) ∧
      (assess_trend w = .neutral ↔
        w.countP (fun x => decide (0 < x)) ≤ 3 ∧ w.countP (fun x => decide (x < 0)) ≤ 3)) ∧
    assess_trend [1, 1, 1, 1, -1] = .buy ∧
    assess_trend [1, 1, 1, -1, -1] = .neutral ∧
    assess_trend_a [1, 1, 1, 1, -1] = .buy ∧
    assess_trend_a [1, 1, 1, -1, -1] = .neutral := by
  have h1 := assess_trend_len5 [1, 1, 1, 1, -1] rfl
  have h2 := assess_trend_len5 [1, 1, 1, -1, -1] rfl
  have e1 : assess_trend [1, 1, 1, 1, -1] = .buy := h1.2.2.1.mpr (by decide)
  have e2 : assess_trend [1, 1, 1, -1, -1] = .neutral := h2.2.2.2.2.2.mpr (by decide)
  exact ⟨assess_trend_len5, e1, e2, h1.1 ▸ e1, h2.1 ▸ e2⟩

theorem c3_trend_classifier_window5_witness :
    assess_trend [2, 3, 4, 5, -6] = .buy :=
  ((c3_trend_classifier_window5.1 [2, 3, 4, 5, -6] rfl).2.2.1).mpr (by decide)

/-- C4 counterexample: the `assess_trend` of src/analysis.py guards with
`len(data) < 2`, not `< 3`, so the 2-value window [1,1] (2 of 2 positive) is classified
strong_buy, not neutral as the claim states. -/
theorem c4_counterexample :
    assess_trend_a [1, 1] = .strong_buy ∧ assess_trend_a [1, 1] ≠ .neutral := by
  constructor <;> decide

/-- C4 (amended): the classifier of src/collect_stockdemand.py (and the backup module)
returns neutral on every window with fewer than 3 values; the variant in src/analysis.py
returns neutral only below 2 values, and classifies [1,1] as strong_buy. -/
theorem c4_insufficient_data :
    (∀ w : List ℤ, w.length < 3 → assess_trend w = .neutral) ∧
    (∀ w : List ℤ, w.length < 2 → assess_trend_a w = .neutral) ∧
    assess_trend_a [1, 1] = .strong_buy := by
  refine ⟨fun w h => ?_, fun w h => ?_, by decide⟩
  · dsimp only [assess_trend]
    rw [if_pos h]
  · dsimp only [assess_trend_a]
    rw [if_pos h]

theorem c4_insufficient_data_witness :
    assess_trend [7, -7] = .neutral ∧ assess_trend_a [9] = .neutral :=
  ⟨c4_insufficient_data.1 [7, -7] (by decide), c4_insufficient_data.2.1 [9] (by decide)⟩

/-- C10: values equal to zero count toward the window length but toward neither strict
tally, so a window with a zero among its inspected values is never classified strong_buy
or strong_sell ([1,1,1,1,0] is buy), and an all-zero window of length ≥ 3 is neutral —
for both classifier variants. -/
theorem c10_zero_values :
    (∀ w : List ℤ, (0 : ℤ) ∈ w.take 5 →
      assess_trend w ≠ .strong_buy ∧ assess_trend w ≠ .strong_sell) ∧
    (∀ w : List ℤ, (0 : ℤ) ∈ w →
      assess_trend_a w ≠ .strong_buy ∧ assess_trend_a w ≠ .strong_sell) ∧
    (∀ w : List ℤ, 3 ≤ w.length → (∀ x ∈ w, x = 0) →
      assess_trend w = .neutral ∧ assess_trend_a w = .neutral) ∧
    assess_trend [1, 1, 1, 1, 0] = .buy ∧
    assess_trend_a [1, 1, 1, 1, 0] = .buy := by
  have hx : assess_trend [1, 1, 1, 1, 0] = assess_trend_a [1, 1, 1, 1, 0] ∧
      assess_trend [1, 1, 1, 1, 0] = .buy := by
    have h := assess_trend_len5 [1, 1, 1, 1, 0] rfl
    exact ⟨h.1, h.2.2.1.mpr (by decide)⟩
  refine ⟨fun w h0 => ?_, fun w h0 => ?_, fun w hlen hz => ?_, hx.2, hx.1 ▸ hx.2⟩
  · constructor <;> intro hEq <;> dsimp only [assess_trend] at hEq <;>
      split_ifs at hEq with h1 h2 h3 h4 <;> simp at hEq
    · exact absurd (List.countP_eq_length.mp h2 0 h0) (by simp)
    · exact absurd (List.countP_eq_length.mp h4 0 h0) (by simp)
  · constructor <;> intro hEq <;> dsimp only [assess_trend_a] at hEq <;>
      split_ifs at hEq with h1 h2 h3 h4 <;> simp at hEq
    · exact absurd (List.countP_eq_length.mp h2 0 h0) (by simp)
    · exact absurd (List.countP_eq_length.mp h4 0 h0) (by simp)
  · have hpc : w.countP (fun x => decide (0 < x)) = 0 :=
      List.countP_eq_zero.mpr fun a ha => by simp [hz a ha]
    have hnc : w.countP (fun x => decide (x < 0)) = 0 :=
      List.countP_eq_zero.mpr fun a ha => by simp [hz a ha]
    have hpct : (w.take 5).countP (fun x => decide (0 < x)) = 0 :=
      List.countP_eq_zero.mpr fun a ha => by simp [hz a (List.mem_of_mem_take ha)]
    have hnct : (w.take 5).countP (fun x => decide (x < 0)) = 0 :=
      List.countP_eq_zero.mpr fun a ha => by simp [hz a (List.mem_of_mem_take ha)]
    have hlt : (w.take 5).length = min 5 w.length := List.length_take ..
    constructor
    · dsimp only [assess_trend]
      rw [if_neg (by omega), hpct, hnct]
      rw [if_neg (by omega)]
      rw [if_neg (by rw [threshold_iff]; omega)]
      rw [if_neg (by omega)]
      rw [if_neg (by rw [threshold_iff]; omega)]
    · dsimp only [assess_trend_a]
      rw [if_neg (by omega), hpc, hnc]
      rw [if_neg (by omega)]
      rw [if_neg (by rw [threshold_iff]; omega)]
      rw [if_neg (by omega)]
      rw [if_neg (by rw [threshold_iff]; omega)]

theorem c10_zero_values_witness :
    (assess_trend [0, 4, 4, 4, 4] ≠ .strong_buy ∧ assess_trend [0, 4, 4, 4, 4] ≠ .strong_sell) ∧
    (assess_trend_a [0, -4, -4] ≠ .strong_buy ∧ assess_trend_a [0, -4, -4] ≠ .strong_sell) ∧
    (assess_trend [0, 0, 0] = .neutral ∧ assess_trend_a [0, 0, 0] = .neutral) :=
  ⟨c10_zero_values.1 [0, 4, 4, 4, 4] (by decide),
   c10_zero_values.2.1 [0, -4, -4] (by decide),
   c10_zero_values.2.2.1 [0, 0, 0] (by decide) (by decide)⟩

/-! ### Numeric normalizer (src/data_collector.py, src/collect_stockdemand.py) -/

/-- Remove every occurrence of the characters in `cs`
(Python `re.sub('[...]', '', s)`). -/
def removeChars (cs : List Char) (s : String) : String :=
  String.mk (s.toList.filter (fun c => !cs.contains c))

/-- The ASCII whitespace stripped by Python `str.strip()` / `int()` / `float()`
(space, tab, newline, carriage return, vertical tab, form feed); the unicode
whitespace CPython additionally strips never occurs in this pipeline's data. -/
def pyIsSpace (c : Char) : Bool :=
  c = ' ' ∨ c = Char.ofNat 9 ∨ c = Char.ofNat 10 ∨ c = Char.ofNat 13 ∨
    c = Char.ofNat 11 ∨ c = Char.ofNat 12

/-- Python `str.strip()` on ASCII whitespace. -/
def pyStrip (s : String) : String :=
  String.mk (((s.toList.dropWhile pyIsSpace).reverse.dropWhile pyIsSpace).reverse)

/-- Decimal value of a list of digit characters. -/
def digitsVal (l : List Char) : ℕ :=
  l.foldl (fun acc c => 10 * acc + (c.toNat - '0'.toNat)) 0

/-- Tail of a Python digit group: digits with single underscores allowed strictly
between digits (PEP 515). -/
def digitGroupRest : List Char → Bool
  | [] => true
  | '_' :: c :: rest => c.isDigit && digitGroupRest rest
  | ['_'] => false
  | c :: rest => c.isDigit && digitGroupRest rest

/-- A Python digit group: nonempty, starts with a digit. -/
def isDigitGroup (l : List Char) : Bool :=
  match l with
  | [] => false
  | c :: rest => c.isDigit && digitGroupRest rest

/-- Python `int(str)`: optional surrounding whitespace, optional single sign, then a
nonempty digit group; anything else raises ValueError (`none` here). CPython also
accepts non-ASCII unicode digits; those never occur in this pipeline's data. -/
def pyParseInt (s : String) : Option ℤ :=
  let t := (pyStrip s).toList
  match t with
  | '+' :: rest =>
    if isDigitGroup rest then some ((digitsVal (rest.filter (fun c => c ≠ '_')) : ℕ) : ℤ)
    else none
  | '-' :: rest =>
    if isDigitGroup rest then some (-((digitsVal (rest.filter (fun c => c ≠ '_')) : ℕ) : ℤ))
    else none
  | _ =>
    if isDigitGroup t then some ((digitsVal (t.filter (fun c => c ≠ '_')) : ℕ) : ℤ)
    else none

/-- Components of a parsed Python float literal: sign, integer-part value,
fraction-part value and digit count, exponent sign and value. Parsing stays fully
decidable; `toRat` assembles the exact rational value. -/
structure FloatRepr where
  sign : ℤ
  ipVal : ℕ
  fpVal : ℕ
  fpLen : ℕ
  esign : ℤ
  eVal : ℕ
  deriving DecidableEq, Repr

/-- The exact rational value of a parsed float literal. -/
def FloatRepr.toRat (r : FloatRepr) : ℚ :=
  (r.sign : ℚ) * ((r.ipVal : ℚ) + (r.fpVal : ℚ) / (10 : ℚ) ^ r.fpLen) *
    (10 : ℚ) ^ (r.esign * (r.eVal : ℤ))

/-- Mantissa `digits [. digits]` with at least one digit overall
(`"1."`, `".5"`, `"1.5"` are valid, `"."` is not); returns
(integer-part value, fraction-part value, fraction digit count). -/
def parseMantissa (t : List Char) : Option (ℕ × ℕ × ℕ) :=
  let ip := t.takeWhile (fun c => c ≠ '.')
  match t.dropWhile (fun c => c ≠ '.') with
  | [] =>
    if isDigitGroup ip then some (digitsVal (ip.filter (fun c => c ≠ '_')), 0, 0)
    else none
  | _ :: fp =>
    if fp.contains '.' then none
    else if (ip.isEmpty || isDigitGroup ip) && (fp.isEmpty || isDigitGroup fp) &&
        !(ip.isEmpty && fp.isEmpty) then
      let fpd := fp.filter (fun c => c ≠ '_')
      some (digitsVal (ip.filter (fun c => c ≠ '_')), digitsVal fpd, fpd.length)
    else none

/-- Python `float(str)` on the finite decimal grammar
`[sign] mantissa [(e|E) [sign] digits]`, as parsed components; `none` = ValueError.
CPython additionally accepts `inf`/`infinity`/`nan` spellings (non-finite values
outside this rational model); no caller input in this pipeline takes that shape. The
binary double rounding of the parsed literal is not modelled either: every value the
claims evaluate is exactly representable. -/
def pyParseFloat (s : String) : Option FloatRepr :=
  let t := (pyStrip s).toList
  let st : ℤ × List Char :=
    match t with
    | '+' :: r => (1, r)
    | '-' :: r => (-1, r)
    | _ => (1, t)
  let mant := st.2.takeWhile (fun c => c ≠ 'e' ∧ c ≠ 'E')
  match st.2.dropWhile (fun c => c ≠ 'e' ∧ c ≠ 'E') with
  | [] =>
    (parseMantissa mant).map fun m => ⟨st.1, m.1, m.2.1, m.2.2, 1, 0⟩
  | _ :: etail =>
    let es : ℤ × List Char :=
      match etail with
      | '+' :: r => (1, r)
      | '-' :: r => (-1, r)
      | _ => (1, etail)
    if isDigitGroup es.2 then
      (parseMantissa mant).map fun m =>
        ⟨st.1, m.1, m.2.1, m.2.2, es.1, digitsVal (es.2.filter (fun c => c ≠ '_'))⟩
    else none

/-! ### UTF-8 decoding (Python `bytes.decode('utf-8')`) -/

/-- A UTF-8 continuation byte. -/
def isCont (b : ℕ) : Bool := 0x80 ≤ b ∧ b ≤ 0xBF

/-- Valid 2-byte UTF-8 sequence head (no overlongs). -/
def utf8TwoOk (b1 b2 : ℕ) : Bool := 0xC2 ≤ b1 ∧ b1 ≤ 0xDF ∧ isCont b2

/-- Valid 3-byte UTF-8 sequence head (no overlongs, no surrogates). -/
def utf8ThreeOk (b1 b2 b3 : ℕ) : Bool :=
  ((b1 = 0xE0 ∧ 0xA0 ≤ b2 ∧ b2 ≤ 0xBF) ∨ (0xE1 ≤ b1 ∧ b1 ≤ 0xEC ∧ isCont b2) ∨
    (b1 = 0xED ∧ 0x80 ≤ b2 ∧ b2 ≤ 0x9F) ∨ (0xEE ≤ b1 ∧ b1 ≤ 0xEF ∧ isCont b2)) ∧
  isCont b3

/-- Valid 4-byte UTF-8 sequence head (no overlongs, max U+10FFFF). -/
def utf8FourOk (b1 b2 b3 b4 : ℕ) : Bool :=
  ((b1 = 0xF0 ∧ 0x90 ≤ b2 ∧ b2 ≤ 0xBF) ∨ (0xF1 ≤ b1 ∧ b1 ≤ 0xF3 ∧ isCont b2) ∨
    (b1 = 0xF4 ∧ 0x80 ≤ b2 ∧ b2 ≤ 0x8F)) ∧
  isCont b3 ∧ isCont b4

/-- Strict UTF-8 decoding of a byte list (RFC 3629), as Python
`bytes.decode('utf-8')`; `none` models UnicodeDecodeError. -/
def utf8DecodeList : List ℕ → Option (List Char)
  | [] => some []
  | b1 :: rest =>
    if b1 < 0x80 then (utf8DecodeList rest).map (fun cs => Char.ofNat b1 :: cs)
    else
      match rest with
      | [] => none
      | b2 :: rest2 =>
        if utf8TwoOk b1 b2 then
          (utf8DecodeList rest2).map
            (fun cs => Char.ofNat ((b1 - 0xC0) * 0x40 + (b2 - 0x80)) :: cs)
        else
          match rest2 with
          | [] => none
          | b3 :: rest3 =>
            if utf8ThreeOk b1 b2 b3 then
              (utf8DecodeList rest3).map
                (fun cs =>
                  Char.ofNat ((b1 - 0xE0) * 0x1000 + (b2 - 0x80) * 0x40 + (b3 - 0x80)) :: cs)
            else
              match rest3 with
              | [] => none
              | b4 :: rest4 =>
                if utf8FourOk b1 b2 b3 b4 then
                  (utf8DecodeList rest4).map
                    (fun cs =>
                      Char.ofNat ((b1 - 0xF0) * 0x40000 + (b2 - 0x80) * 0x1000 +
                        (b3 - 0x80) * 0x40 + (b4 - 0x80)) :: cs)
                else none

/-- UTF-8 decoding to a string. -/
def utf8Decode (bs : List ℕ) : Option String :=
  (utf8DecodeList bs).map String.mk

/-- The Python value shapes distinguished by `safe_int_convert` /
`safe_float_convert`: null, int, float (exact rational), bytes, text. -/
inductive PyValue where
  | none
  | int (z : ℤ)
  | float (q : ℚ)
  | bytes (bs : List ℕ)
  | str (s : String)

/-- `safe_int_convert` (src/data_collector.py:71-88, identical in
src/backup/demand_analysis.py:87-105): `None` → 0; numeric → `int(value)`
(truncation toward zero); bytes → decode UTF-8 then bare `int()`, every failure → 0;
text → remove all `+` and `,` then `int()`, failure → 0. Note the bytes branch applies
NO `re.sub` stripping: the `re.sub(r'[+,]', '', value)` sits only in the `str` branch. -/
def safe_int_convert : PyValue → ℤ
  | .none => 0
  | .int z => z
  | .float q => intTrunc q
  | .bytes bs =>
    match utf8Decode bs with
    | some s =>
      match pyParseInt s with
      | some n => n
      | none => 0
    | none => 0
  | .str s =>
    match pyParseInt (removeChars ['+', ','] s) with
    | some n => n
    | none => 0

/-- `safe_float_convert` (src/data_collector.py:90-107, identical in
src/backup/demand_analysis.py:107-125): `None` → 0.0; numeric → `float(value)`;
bytes → decode UTF-8 then bare `float()`, every failure → 0.0; text → remove all `%`
then `float()`, failure → 0.0. -/
def safe_float_convert : PyValue → ℚ
  | .none => 0
  | .int z => (z : ℚ)
  | .float q => q
  | .bytes bs =>
    match utf8Decode bs with
    | some s =>
      match pyParseFloat s with
      | some r => r.toRat
      | none => 0
    | none => 0
  | .str s =>
    match pyParseFloat (removeChars ['%'] s) with
    | some r => r.toRat
    | none => 0

/-- `parse_numeric_string` (src/collect_stockdemand.py:88-105) on its annotated `str`
input type (for a string, `not value_str` collapses to `value_str == ''`): remove all
`+`, `,`, `%`, strip, empty → 0; a leading `-` is split off and the remainder (with a
redundant second comma removal) goes through `int()`; ValueError → 0. -/
def parse_numeric_string (value_str : String) : ℤ :=
  if value_str = "" ∨ value_str = "N/A" then 0
  else
    let cleaned := pyStrip (removeChars ['+', ',', '%'] value_str)
    if cleaned = "" then 0
    else
      match cleaned.toList with
      | '-' :: rest =>
        match pyParseInt (removeChars [','] (String.mk rest)) with
        | some n => -n
        | none => 0
      | _ =>
        match pyParseInt (removeChars [','] cleaned) with
        | some n => n
        | none => 0

/-- `parse_ratio_string` (src/collect_stockdemand.py:107-120) on its annotated `str`
input type: remove all `%`, strip, empty → 0.0, else `float()`, ValueError → 0.0. -/
def parse_ratio_string (ratio_str : String) : ℚ :=
  if ratio_str = "" ∨ ratio_str = "N/A" then 0
  else
    let cleaned := pyStrip (removeChars ['%'] ratio_str)
    if cleaned = "" then 0
    else
      match pyParseFloat cleaned with
      | some r => r.toRat
      | none => 0

/-- C6: the numeric normalizers are total with the zero fallback: None → 0 (0.0),
"1,234" → 1234, "+57" → 57, "abc" → 0, "12.5%" → 12.5, "" → 0.0, and every text whose
cleaned form fails the integer (float) parse yields 0 (0.0) — for the
`safe_int_convert`/`safe_float_convert` pair and for the
`parse_numeric_string`/`parse_ratio_string` pair alike. -/
theorem c6_normalizer_total_with_fallback :
    (safe_int_convert .none = 0 ∧
      safe_int_convert (.str "1,234") = 1234 ∧
      safe_int_convert (.str "+57") = 57 ∧
      safe_int_convert (.str "abc") = 0 ∧
      safe_float_convert .none = 0 ∧
      safe_float_convert (.str "12.5%") = 12.5 ∧
      safe_float_convert (.str "") = 0) ∧
    (parse_numeric_string "1,234" = 1234 ∧
      parse_numeric_string "+57" = 57 ∧
      parse_numeric_string "abc" = 0 ∧
      parse_ratio_string "12.5%" = 12.5 ∧
      parse_ratio_string "" = 0) ∧
    (∀ s : String, pyParseInt (removeChars ['+', ','] s) = none →
      safe_int_convert (.str s) = 0) ∧
    (∀ s : String, pyParseFloat (removeChars ['%'] s) = none →
      safe_float_convert (.str s) = 0) := by
  have h125 : pyParseFloat (removeChars ['%'] "12.5%") = some ⟨1, 12, 5, 1, 1, 0⟩ := by
    decide
  have hfl : safe_float_convert (.str "12.5%") = 12.5 := by
    simp only [safe_float_convert]
    rw [h125]
    norm_num [FloatRepr.toRat]
  have hrt : parse_ratio_string "12.5%" = 12.5 := by
    simp only [parse_ratio_string]
    rw [if_neg (by decide), if_neg (by decide),
      show pyParseFloat (pyStrip (removeChars ['%'] "12.5%")) = some ⟨1, 12, 5, 1, 1, 0⟩
        from by decide]
    norm_num [FloatRepr.toRat]
  have hfe : safe_float_convert (.str "") = 0 := by
    simp only [safe_float_convert]
    rw [show pyParseFloat (removeChars ['%'] "") = none from by decide]
  have hre : parse_ratio_string "" = 0 := by
    simp only [parse_ratio_string]
    rw [if_pos (by decide)]
  refine ⟨⟨by decide, by decide, by decide, by decide, ?_, hfl, hfe⟩,
    ⟨by decide, by decide, by decide, hrt, hre⟩, fun s h => ?_, fun s h => ?_⟩
  · simp only [safe_float_convert]
  · simp only [safe_int_convert]
    rw [h]
  · simp only [safe_float_convert]
    rw [h]

theorem c6_normalizer_total_with_fallback_witness :
    safe_int_convert (.str "x,y") = 0 ∧ safe_float_convert (.str "x%y") = 0 :=
  ⟨c6_normalizer_total_with_fallback.2.2.1 "x,y" (by decide),
   c6_normalizer_total_with_fallback.2.2.2 "x%y" (by decide)⟩

/-- C7 counterexample: the byte sequence b"1,234" decodes as UTF-8 to "1,234", yet the
bytes branch of `safe_int_convert` yields the 0 fallback (bare `int()` on the decoded
text, no comma stripping) while the textual rule yields 1234 — refuting the claim that
a decodable byte sequence gets the same result as the textual rule, and in particular
its example to_int(b"1,234") = 1234. -/
theorem c7_counterexample :
    utf8Decode [49, 44, 50, 51, 52] = some "1,234" ∧
    safe_int_convert (.bytes [49, 44, 50, 51, 52]) = 0 ∧
    safe_int_convert (.str "1,234") = 1234 := by
  refine ⟨by decide, by decide, by decide⟩

/-- C7 (amended): a byte sequence that decodes as UTF-8 is parsed with the bare `int()`
parser on the decoded string — without the comma/plus stripping of the textual rule —
and a byte sequence that fails UTF-8 decoding yields the zero fallback. -/
theorem c7_bytes_branch (bs : List ℕ) :
    (∀ s : String, utf8Decode bs = some s →
      safe_int_convert (.bytes bs) = (pyParseInt s).getD 0) ∧
    (utf8Decode bs = none → safe_int_convert (.bytes bs) = 0) := by
  constructor
  · intro s h
    simp only [safe_int_convert]
    rw [h]
    dsimp only
    cases hp : pyParseInt s <;> rfl
  · intro h
    simp only [safe_int_convert]
    rw [h]

theorem c7_bytes_branch_witness :
    safe_int_convert (.bytes [53, 55]) = (pyParseInt "57").getD 0 ∧
    safe_int_convert (.bytes [0xFF]) = 0 :=
  ⟨(c7_bytes_branch [53, 55]).1 "57" (by decide),
   (c7_bytes_branch [0xFF]).2 (by decide)⟩

/-! ### Record parser (src/data_collector.py parse_stock_data) -/

/-- Python string slice `s[a:b]` for `0 ≤ a ≤ b`: clamps, never raises. -/
def pySlice (s : String) (a b : ℕ) : String :=
  String.mk ((s.toList.drop a).take (b - a))

/-- The date reformatting `f"{d[:4]}-{d[4:6]}-{d[6:8]}"`: pure slicing, no shape check —
a short input like "2024" yields "2024--". -/
def formatBizdate (ds : String) : String :=
  pySlice ds 0 4 ++ "-" ++ pySlice ds 4 6 ++ "-" ++ pySlice ds 6 8

/-- Floor of a rational (numerator floor-divided by the positive denominator),
kept kernel-computable. -/
def floorQ (q : ℚ) : ℤ := Int.fdiv q.num (q.den : ℤ)

/-- Fractional part of a rational. -/
def fractQ (q : ℚ) : ℚ := q - (floorQ q : ℚ)

/-- Round half to even, on the exact rational value (Python `round`; the binary
representation effects of CPython's rounding on doubles are not modelled). -/
def roundHalfEven (q : ℚ) : ℤ :=
  if fractQ q < 1 / 2 then floorQ q
  else if 1 / 2 < fractQ q then floorQ q + 1
  else if floorQ q % 2 = 0 then floorQ q else floorQ q + 1

/-- Python `round(x, 2)`. -/
def pyRound2 (q : ℚ) : ℚ := (roundHalfEven (q * 100) : ℚ) / 100

/-- One raw daily record as consumed by `parse_stock_data`: `bizdate` is `none` when
the key is absent (then `item['bizdate']` raises KeyError and the record is dropped);
every other field reaches the loop body through `.get(key, default)` and so always
yields some value; `changeDirectionText` stands for
`item.get('compareToPreviousPrice', {}).get('text', '')`. -/
structure RawItem where
  bizdate : Option String
  closePrice : PyValue
  compareToPreviousClosePrice : PyValue
  changeDirectionText : String
  foreignerPureBuyQuant : PyValue
  foreignerHoldRatio : PyValue
  organPureBuyQuant : PyValue
  individualPureBuyQuant : PyValue
  accumulatedTradingVolume : PyValue

/-- One canonical parsed record (the dict appended to `parsed_data`). -/
structure ParsedRecord where
  stock_code : String
  stock_name : String
  date : String
  close_price : ℤ
  price_change : ℤ
  change_direction : String
  change_rate : ℚ
  foreigner_pure_buy : ℤ
  foreigner_hold_ratio : ℚ
  organ_pure_buy : ℤ
  individual_pure_buy : ℤ
  accumulated_volume : ℤ
  net_institutional_buy : ℤ
  supply_demand_balance : ℤ

/-- The body of the per-item loop of `parse_stock_data` (src/data_collector.py:125-180):
`none` models the `except ... continue` path, reached exactly when the `bizdate` key is
missing — every numeric conversion is total (zero fallback) and the percent-change
division is guarded by `prev_close != 0`. -/
def parseStockItem (stock_code stock_name : String) (item : RawItem) : Option ParsedRecord :=
  match item.bizdate with
  | none => none
  | some date_str =>
    let formatted_date := formatBizdate date_str
    let close_price := safe_int_convert item.closePrice
    let price_change := safe_int_convert item.compareToPreviousClosePrice
    let prev_close := close_price - price_change
    let change_rate : ℚ :=
      if prev_close ≠ 0 then (price_change : ℚ) / (prev_close : ℚ) * 100 else 0
    let foreigner_pure_buy := safe_int_convert item.foreignerPureBuyQuant
    let organ_pure_buy := safe_int_convert item.organPureBuyQuant
    let individual_pure_buy := safe_int_convert item.individualPureBuyQuant
    let net_institutional_buy := foreigner_pure_buy + organ_pure_buy
    some
      { stock_code := stock_code
        stock_name := stock_name
        date := formatted_date
        close_price := close_price
        price_change := price_change
        change_direction := item.changeDirectionText
        change_rate := pyRound2 change_rate
        foreigner_pure_buy := foreigner_pure_buy
        foreigner_hold_ratio := safe_float_convert item.foreignerHoldRatio
        organ_pure_buy := organ_pure_buy
        individual_pure_buy := individual_pure_buy
        accumulated_volume := safe_int_convert item.accumulatedTradingVolume
        net_institutional_buy := net_institutional_buy
        supply_demand_balance := net_institutional_buy + individual_pure_buy }

/-- `parse_stock_data` (src/data_collector.py:125-180): per-item try/except with
`continue` = `filterMap`. -/
def parse_stock_data (stock_code stock_name : String) (raw : List RawItem) :
    List ParsedRecord :=
  raw.filterMap (parseStockItem stock_code stock_name)

/-- A well-formed raw item with all quantities 0 and the given date string. -/
def zeroItem (d : Option String) : RawItem :=
  { bizdate := d
    closePrice := .int 0
    compareToPreviousClosePrice := .int 0
    changeDirectionText := ""
    foreignerPureBuyQuant := .int 0
    foreignerHoldRatio := .int 0
    organPureBuyQuant := .int 0
    individualPureBuyQuant := .int 0
    accumulatedTradingVolume := .int 0 }

/-- C8 counterexample: a batch with a record whose compact date "2024" is too short for
the 8-digit shape. Python slicing clamps instead of failing, so that record is NOT
dropped: all three records are emitted and the malformed one carries the date
"2024--". -/
theorem c8_counterexample :
    (parse_stock_data "X" "N"
        [zeroItem (some "20240102"), zeroItem (some "2024"), zeroItem (some "20240103")]).map
      (fun r => r.date) = ["2024-01-02", "2024--", "2024-01-03"] := by
  decide

/-- C8 (amended): the parser drops a record exactly when its date field is missing;
a present-but-too-short date does not fail (slicing clamps, the record is emitted with
the malformed reformatted date), and a dropped record never disturbs its siblings:
the batch result is the concatenation of the results on either side. -/
theorem c8_record_parsing (code name : String) :
    (∀ item : RawItem, parseStockItem code name item = none ↔ item.bizdate = none) ∧
    (∀ item : RawItem, ∀ ds : String, item.bizdate = some ds →
      ∃ r : ParsedRecord, parseStockItem code name item = some r ∧
        r.date = formatBizdate ds) ∧
    (∀ pre post : List RawItem, ∀ bad : RawItem, bad.bizdate = none →
      parse_stock_data code name (pre ++ bad :: post)
        = parse_stock_data code name pre ++ parse_stock_data code name post) := by
  refine ⟨fun item => ?_, fun item ds h => ?_, fun pre post bad h => ?_⟩
  · cases hb : item.bizdate with
    | none => simp [parseStockItem, hb]
    | some d => simp [parseStockItem, hb]
  · dsimp only [parseStockItem]
    rw [h]
    exact ⟨_, rfl, rfl⟩
  · have hnone : parseStockItem code name bad = none := by
      simp [parseStockItem, h]
    simp [parse_stock_data, List.filterMap_append, List.filterMap_cons, hnone]

theorem c8_record_parsing_witness :
    (parseStockItem "X" "N" (zeroItem none) = none) ∧
    (∃ r : ParsedRecord, parseStockItem "X" "N" (zeroItem (some "2024")) = some r ∧
      r.date = formatBizdate "2024") ∧
    parse_stock_data "X" "N" [zeroItem (some "20240102"), zeroItem none]
      = parse_stock_data "X" "N" [zeroItem (some "20240102")] ++ parse_stock_data "X" "N" [] :=
  ⟨((c8_record_parsing "X" "N").1 (zeroItem none)).mpr rfl,
   (c8_record_parsing "X" "N").2.1 (zeroItem (some "2024")) "2024" rfl,
   (c8_record_parsing "X" "N").2.2 [zeroItem (some "20240102")] [] (zeroItem none) rfl⟩

/-! ### Favorites ranker (src/analysis.py find_institutional_favorites) -/

/-- One stored row of the `stock_supply_demand` table, restricted to the columns the
favorites pipeline reads. -/
structure StockRow where
  stock_code : String
  stock_name : String
  date : String
  foreigner_pure_buy : ℤ
  organ_pure_buy : ℤ
  individual_pure_buy : ℤ

/-- `get_recent_data(stock_code, days)` (src/analysis.py:12-33): the security's rows
ordered by date descending (SQLite compares the ISO date strings as text; modelled by
a stable merge sort), truncated to `days` rows. -/
def get_recent_data (store : List StockRow) (code : String) (limit : ℕ) : List StockRow :=
  ((store.filter (fun r => r.stock_code = code)).mergeSort
    (fun a b => b.date ≤ a.date)).take limit

/-- The slice of a `calculate_supply_trend` result that the favorites filter consumes
(`supply_score`, `recommendation` and the three per-leg trends; the sums/averages and
display metadata of the source dict are read by nothing in claim C9). -/
structure TrendAnalysis where
  foreigner_trend : Trend
  organ_trend : Trend
  individual_trend : Trend
  supply_score : ℤ
  recommendation : Rec

/-- `calculate_supply_trend(stock_code, window=5)` (src/analysis.py:35-73): read back
`window*2 = 10` recent rows, `None` if empty, else classify the head-5 rows per leg
with the module's own `assess_trend` and score them. -/
def calculate_supply_trend (store : List StockRow) (code : String) : Option TrendAnalysis :=
  let data := get_recent_data store code 10
  if data.isEmpty then none
  else
    let recent := data.take 5
    let ft := assess_trend_a (recent.map (fun r => r.foreigner_pure_buy))
    let ot := assess_trend_a (recent.map (fun r => r.organ_pure_buy))
    let it := assess_trend_a (recent.map (fun r => r.individual_pure_buy))
    let score := calculate_supply_score ft ot it
    some ⟨ft, ot, it, score, get_recommendation score⟩

/-- The rows inside the lookback window `date >= date('now', '-N days')`; the SQLite
cutoff is modelled as an inclusive lower-bound date string (ISO dates compare
lexicographically as text). -/
def windowRows (cutoff : String) (store : List StockRow) : List StockRow :=
  store.filter (fun r => cutoff ≤ r.date)

/-- `GROUP BY stock_code, stock_name`: the group keys in first-appearance order. -/
def groupKeys : List StockRow → List (String × String)
  | [] => []
  | r :: rs =>
    (r.stock_code, r.stock_name) ::
      (groupKeys rs).filter (fun k => k ≠ (r.stock_code, r.stock_name))

/-- `SUM(foreigner_pure_buy)` over one group. -/
def fSumOf (rows : List StockRow) (k : String × String) : ℤ :=
  ((rows.filter (fun r => (r.stock_code, r.stock_name) = k)).map
    (fun r => r.foreigner_pure_buy)).sum

/-- `SUM(organ_pure_buy)` over one group. -/
def oSumOf (rows : List StockRow) (k : String × String) : ℤ :=
  ((rows.filter (fun r => (r.stock_code, r.stock_name) = k)).map
    (fun r => r.organ_pure_buy)).sum

/-- One row of the aggregate pre-filter query result. -/
structure Candidate where
  stock_code : String
  stock_name : String
  total_foreigner_buy : ℤ
  total_organ_buy : ℤ

/-- The SQL of `find_institutional_favorites` (src/analysis.py:130-140): aggregate per
(code, name) over the windowed rows, `HAVING` both sums strictly positive, `ORDER BY`
the sum of the two totals descending. -/
def favoritesQuery (cutoff : String) (store : List StockRow) : List Candidate :=
  ((groupKeys (windowRows cutoff store)).filterMap (fun k =>
    if 0 < fSumOf (windowRows cutoff store) k ∧ 0 < oSumOf (windowRows cutoff store) k then
      some ⟨k.1, k.2, fSumOf (windowRows cutoff store) k, oSumOf (windowRows cutoff store) k⟩
    else none)).mergeSort
    (fun a b => b.total_foreigner_buy + b.total_organ_buy
      ≤ a.total_foreigner_buy + a.total_organ_buy)

/-- One entry of the favorites result frame. -/
structure FavoriteEntry where
  stock_code : String
  stock_name : String
  foreigner_total_buy : ℤ
  organ_total_buy : ℤ
  total_institutional_buy : ℤ
  supply_score : ℤ
  recommendation : Rec

/-- `find_institutional_favorites(days, min_score)` (src/analysis.py:126-160): run the
aggregate query, then per candidate recompute the full trend pipeline and keep it only
when an analysis exists and its score reaches `min_score`. -/
def find_institutional_favorites (cutoff : String) (min_score : ℤ)
    (store : List StockRow) : List FavoriteEntry :=
  (favoritesQuery cutoff store).filterMap fun c =>
    match calculate_supply_trend store c.stock_code with
    | some a =>
      if min_score ≤ a.supply_score then
        some ⟨c.stock_code, c.stock_name, c.total_foreigner_buy, c.total_organ_buy,
          c.total_foreigner_buy + c.total_organ_buy, a.supply_score, a.recommendation⟩
      else none
    | none => none

theorem groupKeys_mem (l : List StockRow) (k : String × String) :
    k ∈ groupKeys l ↔ ∃ r ∈ l, (r.stock_code, r.stock_name) = k := by
  induction l with
  | nil => simp [groupKeys]
  | cons r rs ih =>
    simp only [groupKeys, List.mem_cons, List.mem_filter, List.mem_cons,
      decide_eq_true_eq]
    constructor
    · rintro (h | ⟨h1, h2⟩)
      · exact ⟨r, Or.inl rfl, h.symm⟩
      · obtain ⟨r', hr', hk⟩ := ih.mp h1
        exact ⟨r', Or.inr hr', hk⟩
    · rintro ⟨r', hr' | hr', hk⟩
      · subst hr'
        exact Or.inl hk.symm
      · by_cases he : k = (r.stock_code, r.stock_name)
        · exact Or.inl he
        · exact Or.inr ⟨ih.mpr ⟨r', hr', hk⟩, by simpa using he⟩

theorem fSumOf_pos_mem (rows : List StockRow) (k : String × String)
    (h : 0 < fSumOf rows k) : ∃ r ∈ rows, (r.stock_code, r.stock_name) = k := by
  by_contra hn
  push_neg at hn
  have hnil : rows.filter (fun r => (r.stock_code, r.stock_name) = k) = [] := by
    rw [List.filter_eq_nil_iff]
    intro r hr
    simpa using hn r hr
  rw [fSumOf, hnil] at h
  simp at h

/-- C9: a (code, name) group appears in the favorites output iff both its foreign and
institutional net-buy sums over the lookback window are strictly positive AND the
independently recomputed analysis exists with composite score at least `min_score`;
moreover the candidate list produced by the aggregate query (the order the score filter
then traverses) is sorted descending by the sum of the two totals. -/
theorem c9_favorites_ranker (store : List StockRow) (cutoff : String) (min_score : ℤ)
    (k : String × String) :
    ((∃ e ∈ find_institutional_favorites cutoff min_score store,
        (e.stock_code, e.stock_name) = k) ↔
      0 < fSumOf (windowRows cutoff store) k ∧ 0 < oSumOf (windowRows cutoff store) k ∧
        ∃ a : TrendAnalysis, calculate_supply_trend store k.1 = some a ∧
          min_score ≤ a.supply_score) ∧
    (favoritesQuery cutoff store).Pairwise
      (fun a b => b.total_foreigner_buy + b.total_organ_buy
        ≤ a.total_foreigner_buy + a.total_organ_buy) := by
  refine ⟨⟨?_, ?_⟩, ?_⟩
  · rintro ⟨e, he, hk⟩
    obtain ⟨c, hc, hfc⟩ := List.mem_filterMap.mp he
    unfold favoritesQuery at hc
    rw [List.mem_mergeSort] at hc
    obtain ⟨k', hk', hck⟩ := List.mem_filterMap.mp hc
    by_cases hpos : 0 < fSumOf (windowRows cutoff store) k' ∧
        0 < oSumOf (windowRows cutoff store) k'
    · rw [if_pos hpos] at hck
      injection hck with hck
      subst hck
      dsimp only at hfc
      cases hcalc : calculate_supply_trend store k'.1 with
      | none =>
        rw [hcalc] at hfc
        exact absurd hfc (by simp)
      | some a =>
        rw [hcalc] at hfc
        dsimp only at hfc
        by_cases hs : min_score ≤ a.supply_score
        · rw [if_pos hs] at hfc
          injection hfc with hfc
          subst hfc
          dsimp only at hk
          rw [Prod.mk.eta] at hk
          subst hk
          exact ⟨hpos.1, hpos.2, a, hcalc, hs⟩
        · rw [if_neg hs] at hfc
          exact absurd hfc (by simp)
    · rw [if_neg hpos] at hck
      exact absurd hck (by simp)
  · rintro ⟨hf, ho, a, ha, hs⟩
    have hkmem : k ∈ groupKeys (windowRows cutoff store) :=
      (groupKeys_mem _ _).mpr (fSumOf_pos_mem _ _ hf)
    have hcmem : (⟨k.1, k.2, fSumOf (windowRows cutoff store) k,
        oSumOf (windowRows cutoff store) k⟩ : Candidate) ∈ favoritesQuery cutoff store := by
      unfold favoritesQuery
      rw [List.mem_mergeSort]
      refine List.mem_filterMap.mpr ⟨k, hkmem, ?_⟩
      rw [if_pos ⟨hf, ho⟩]
    refine ⟨⟨k.1, k.2, fSumOf (windowRows cutoff store) k,
      oSumOf (windowRows cutoff store) k,
      fSumOf (windowRows cutoff store) k + oSumOf (windowRows cutoff store) k,
      a.supply_score, a.recommendation⟩,
      List.mem_filterMap.mpr ⟨_, hcmem, ?_⟩, rfl⟩
    dsimp only
    rw [ha]
    dsimp only
    rw [if_pos hs]
  · unfold favoritesQuery
    refine List.Pairwise.imp ?_ (List.sorted_mergeSort ?_ ?_ _)
    · intro a b h
      simpa using h
    · intro a b c hab hbc
      simp only [decide_eq_true_eq] at hab hbc ⊢
      omega
    · intro a b
      simp only [Bool.or_eq_true, decide_eq_true_eq]
      omega

end DemandAnaly
